import Mathlib

/-! # ember-custom-actions: the action request and the URL builder

A shallow embedding of `addon/actions/action.js` (the `Action` object: construction,
configuration, URL and method derivation, dispatch, success and error handlers) and of
`utils/url-builder.js`.

Conventions of the embedding.

* JavaScript values are the type `JSVal`: `undefined`, `null`, booleans, integer numbers,
  strings, arrays and plain objects. A plain object is the list of its own enumerable
  properties in enumeration order (for keys that are not array indices, the order of
  insertion). Numbers are integers (no fractions, no `NaN`).
* A synchronous `throw` is the `Except.error` of a function returning `Except JSError`.
  `assert` from `@ember/debug` is modelled as it behaves in a debug build: it throws when its
  condition is falsy.
* The collaborators reached through the model (adapter, serializer, store) are records of
  functions. The calls that have an effect on the outside (`ajax`, `pushPayload`,
  `extractErrors`) are recorded in a list of `Call`s, in the order they are made.
* Functions imported from other packages whose full behaviour is not fixed by this repository
  are the fields of `Deps`.
-/

namespace EmberCustomActions

/-- JavaScript values. -/
inductive JSVal where
  | undefined
  | null
  | bool (b : Bool)
  | num (n : Int)
  | str (s : String)
  | arr (items : List JSVal)
  | obj (props : List (String × JSVal))
  deriving Repr, Inhabited

/-- Errors raised by a synchronous `throw`. -/
inductive JSError where
  /-- A failed `assert(message, condition)` of `@ember/debug`. -/
  | assertion (message : String)
  /-- A `TypeError` of the language: a member read on `undefined` or `null`, or a call of
  something that is not a function. -/
  | typeError
  deriving Repr, DecidableEq

/-- The language's `ToBoolean`: the truthiness used by `!`, `&&`, `||` and `?:`. -/
def toBoolean : JSVal → Bool
  | .undefined => false
  | .null => false
  | .bool b => b
  | .num n => n != 0
  | .str s => s != ""
  | .arr _ => true
  | .obj _ => true

/-- Ember `typeOf` (`@ember/utils`). -/
def emberTypeOf : JSVal → String
  | .undefined => "undefined"
  | .null => "null"
  | .bool _ => "boolean"
  | .num _ => "number"
  | .str _ => "string"
  | .arr _ => "array"
  | .obj _ => "object"

/-- Own property read on a property list: the value, or `undefined` when the key is missing. -/
def getProp (props : List (String × JSVal)) (key : String) : JSVal :=
  (props.lookup key).getD .undefined

/-- Ember `get(object, key)` for one key: the own property of a plain object, `undefined`
for a missing key and for values that carry no such property. -/
def get (object : JSVal) (key : String) : JSVal :=
  match object with
  | .obj props => getProp props key
  | _ => .undefined

/-- Property write `object[key] = value` on a property list: an existing key keeps its place,
a new key goes to the end. -/
def setProp : List (String × JSVal) → String → JSVal → List (String × JSVal)
  | [], key, value => [(key, value)]
  | (k, v) :: rest, key, value =>
    if k = key then (k, value) :: rest else (k, v) :: setProp rest key value

/-- Ember `isArray` (`@ember/array`): native arrays, and plain objects with a numeric `length`;
never a falsy value nor an object with a truthy `setInterval`. -/
def isArray (value : JSVal) : Bool :=
  if !toBoolean value || toBoolean (get value "setInterval") then false
  else match value with
    | .arr _ => true
    | .obj props =>
      match getProp props "length" with
      | .num _ => true
      | _ => false
    | _ => false

/-- Ember `assert(message, condition)`: throws when the condition is falsy. -/
def assert (message : String) (condition : Bool) : Except JSError Unit :=
  if condition then pure () else throw (.assertion message)

/-- A settled promise. -/
inductive Promise where
  | fulfilled (value : JSVal)
  | rejected (reason : JSVal)
  /-- Rejected with an error thrown inside a handler. -/
  | rejectedWith (error : JSError)

/-- What `callAction` returns: the promise, a promise proxy around it, or, for a response type
that names something `promiseProxies` only inherits, whatever `create` of that thing made. -/
inductive ActionResult where
  | promise (p : Promise)
  | arrayProxy (p : Promise)
  | objectProxy (p : Promise)
  | created (p : Promise)

/-- The functions imported from other packages, as the module receives them, and what the
language provides. -/
structure Deps where
  /-- `camelize` of `@ember/string`. -/
  camelize : String → String
  /-- `String.prototype.toUpperCase`. -/
  toUpperCase : String → String
  /-- The nested step of `lodash/merge`: from the value already at a key of the destination
  and an array or object found at that key of the source, the value stored at the key. -/
  mergeDeep : JSVal → JSVal → JSVal
  /-- `normalizePayload(payload, operation)` of `utils/normalize-payload`. -/
  normalizePayload : JSVal → JSVal → JSVal
  /-- The default export of `jquery-param`: the serialised query string. -/
  param : JSVal → Except JSError String
  /-- The expression `promiseProxies[key].create({ promise })` for a key that the object
  literal `promiseProxies` does not own but inherits from `Object.prototype`; `none` for a key
  it does not have at all. -/
  inheritedProxy : String → Option (Promise → Except JSError ActionResult)

/-! ## `lodash/merge`

An external package. The walk over the keys of each source is modelled here; what it stores
for a nested array or object is the field `mergeDeep` of `Deps`. -/

/-- The enumerable keys and values of a merge source: the properties of an object, the
indexed items of an array, the indexed characters of a string, nothing for the rest. -/
def entries : JSVal → List (String × JSVal)
  | .obj props => props
  | .arr items => items.enum.map fun (i, v) => (toString i, v)
  | .str s => s.data.enum.map fun (i, c) => (toString i, .str c.toString)
  | _ => []

/-- The keys of a merge source. -/
def ownKeys (source : JSVal) : List String :=
  (entries source).map Prod.fst

/-- lodash `assignMergeValue` for a source value that is not an object: a defined value is
stored at the key; `undefined` only creates a key that is missing. -/
def assignMergeValue (object : List (String × JSVal)) (key : String) (value : JSVal) :
    List (String × JSVal) :=
  match value with
  | .undefined => if (object.lookup key).isSome then object else setProp object key .undefined
  | v => setProp object key v

/-- lodash `baseMerge` of the entries of one source into the destination object. -/
def baseMerge (D : Deps) (object : List (String × JSVal)) :
    List (String × JSVal) → List (String × JSVal)
  | [] => object
  | (key, srcValue) :: rest =>
    let merged :=
      match srcValue with
      | .arr _ => setProp object key (D.mergeDeep (getProp object key) srcValue)
      | .obj _ => setProp object key (D.mergeDeep (getProp object key) srcValue)
      | v => assignMergeValue object key v
    baseMerge D merged rest

/-- The call `deepMerge({}, ...sources)` with `lodash/merge`: the sources are merged from left
to right into a fresh object; a falsy source is skipped. -/
def deepMerge (D : Deps) (sources : List JSVal) : JSVal :=
  .obj (sources.foldl
    (fun object source => if toBoolean source then baseMerge D object (entries source) else object)
    [])

/-! ## `jquery-param`

An external package, the serialiser that `url-builder.js` imports. It walks the value with
`for ... in` and index loops, in enumeration order, and joins `name=value` pairs with `&`.
The walk over the top level is modelled here. What the package takes from the language (the
encoder of names and values, the text of a number) and the pairs it writes for an array or an
object found under a key are the fields of `ParamDeps`. -/

/-- What the serialiser takes as given. -/
structure ParamDeps where
  /-- The encoder of names and values (`encodeURIComponent`). -/
  encode : String → String
  /-- The text `String(n)` of a number. -/
  numberToString : Int → String
  /-- The pairs written for an array or an object found under a non-empty key. -/
  nested : String → JSVal → List String

/-- The characters `encodeURIComponent` leaves as they are. -/
def isUnreserved (c : Char) : Bool :=
  c.isAlphanum || [45, 95, 46, 33, 126, 42, 39, 40, 41].contains c.toNat

/-- One upper-case hexadecimal digit. -/
def hexDigit (n : Nat) : Char :=
  if n < 10 then Char.ofNat (48 + n) else Char.ofNat (55 + n)

/-- The UTF-8 bytes of a character. -/
def utf8Bytes (c : Char) : List Nat :=
  let n := c.toNat
  if n < 128 then [n]
  else if n < 2048 then [192 + n / 64, 128 + n % 64]
  else if n < 65536 then [224 + n / 4096, 128 + n / 64 % 64, 128 + n % 64]
  else [240 + n / 262144, 128 + n / 4096 % 64, 128 + n / 64 % 64, 128 + n % 64]

/-- The language's `encodeURIComponent` on a well-formed string. -/
def encodeURIComponent (s : String) : String :=
  String.mk (s.data.flatMap fun c =>
    if isUnreserved c then [c]
    else (utf8Bytes c).flatMap fun b => ['%', hexDigit (b / 16), hexDigit (b % 16)])

mutual
/-- The language's `String(value)`, given the text of a number. -/
def toStr (numberToString : Int → String) : JSVal → String
  | .undefined => "undefined"
  | .null => "null"
  | .bool b => if b then "true" else "false"
  | .num n => numberToString n
  | .str s => s
  | .arr items => ",".intercalate (toStrItems numberToString items)
  | .obj _ => "[object Object]"
/-- The items of an array as `Array.prototype.join` renders them. -/
def toStrItems (numberToString : Int → String) : List JSVal → List String
  | [] => []
  | .undefined :: rest => "" :: toStrItems numberToString rest
  | .null :: rest => "" :: toStrItems numberToString rest
  | item :: rest => toStr numberToString item :: toStrItems numberToString rest
end

/-- The `add(key, value)` of `jquery-param`: one `name=value` pair; `null` and `undefined`
values are written as the empty string. -/
def add (encode : String → String) (numberToString : Int → String) (key : String)
    (value : JSVal) : String :=
  encode key ++ "=" ++
    encode (match value with
      | .undefined => ""
      | .null => ""
      | v => toStr numberToString v)

/-- The member read `value.key`: a `TypeError` on `undefined` and `null`, the own property of
a plain object, `undefined` where there is no such property. Used for `item.name`,
`item.value` and `error.errors`. -/
def member (value : JSVal) (key : String) : Except JSError JSVal :=
  match value with
  | .undefined => throw .typeError
  | .null => throw .typeError
  | .obj props => pure (getProp props key)
  | _ => pure .undefined

/-- The pairs of a top-level array of `{name, value}` items. -/
def addNamed (L : ParamDeps) : List JSVal → Except JSError (List String)
  | [] => pure []
  | item :: rest => do
    let name ← member item "name"
    let value ← member item "value"
    let more ← addNamed L rest
    pure (add L.encode L.numberToString (toStr L.numberToString name) value :: more)

mutual
/-- The `buildParams(key, obj)` of `jquery-param`: the pairs of one key and its value. Under
the empty key the value is walked as the top level is. -/
def buildParams (L : ParamDeps) (pfx : String) : JSVal → Except JSError (List String)
  | .arr items =>
    if pfx ≠ "" then pure (L.nested pfx (.arr items)) else addNamed L items
  | .obj props =>
    if pfx ≠ "" then pure (L.nested pfx (.obj props)) else buildTop L props
  | .str s =>
    if pfx ≠ "" then pure [add L.encode L.numberToString pfx (.str s)]
    else pure (s.data.enum.map fun (i, c) =>
      add L.encode L.numberToString (toString i) (.str c.toString))
  | v => if pfx ≠ "" then pure [add L.encode L.numberToString pfx v] else pure []
/-- The loop `for (key in obj) buildParams(key, obj[key])` over the properties of the
top-level object, in their enumeration order. -/
def buildTop (L : ParamDeps) : List (String × JSVal) → Except JSError (List String)
  | [] => pure []
  | (key, value) :: rest => do
    let here ← buildParams L key value
    let more ← buildTop L rest
    pure (here ++ more)
end

/-- The default export of `jquery-param`. -/
def jqueryParam (L : ParamDeps) (a : JSVal) : Except JSError String := do
  let pairs ← buildParams L "" a
  pure ("&".intercalate pairs)

/-! ## `utils/url-builder.js` -/

/-- The test `url.charAt(url.length - 1) === '/'`. -/
def endsWithSlash (url : String) : Bool :=
  url.data.getLast? == some '/'

/-- The default export of `utils/url-builder.js`. -/
def urlBuilder (param : JSVal → Except JSError String) (url path : String) (queryParams : JSVal) :
    Except JSError String := do
  let query ← param queryParams
  let pathUrl := if endsWithSlash url then url ++ path else url ++ "/" ++ path
  pure (if query ≠ "" then pathUrl ++ "?" ++ query else pathUrl)

/-! ## `addon/actions/action.js` -/

/-- The store: a handle that is only passed on to the adapter and the serializer. -/
structure Store where
  handle : Nat
  deriving Repr, DecidableEq

/-- The class of a model (`model.constructor`), with the two places its name is read from. -/
structure TypeClass where
  modelName : JSVal
  typeKey : JSVal

/-- The argument of the adapter hook `methodForCustomAction`. -/
structure MethodParams where
  method : JSVal
  actionId : String
  modelId : Option String

/-- The adapter returned by `store.adapterFor(modelName)`. The two hooks of the adapter
integration may be missing. `ajax` gives how the request settles: `Except.ok response` for a
resolved promise, `Except.error error` for a rejected one. -/
structure Adapter where
  _buildURL : JSVal → Option String → String
  sortQueryParams : JSVal → JSVal
  urlForCustomAction : Option (JSVal → Option String → JSVal → String → JSVal → String)
  methodForCustomAction : Option (MethodParams → JSVal)
  ajax : String → String → JSVal → Except JSVal JSVal

/-- The serializer returned by `store.serializerFor(modelName)`. -/
structure Serializer where
  pushPayload : Store → JSVal → JSVal
  extractErrors : Store → TypeClass → JSVal → Option String → JSVal

/-- An Ember Data model, as far as the action reads it. The identifier is a string, or `none`
for `null`. `emberCustomActions` is the entry of that name in the registration
`config:environment` of the owner of the model (`undefined` when it is not there).
`adapterFor` and `serializerFor` are those of `model.store`; `createSnapshot` is
`model._internalModel.createSnapshot`. -/
structure Model where
  id : Option String
  typeClass : TypeClass
  store : Store
  emberCustomActions : JSVal
  adapterFor : JSVal → Adapter
  serializerFor : JSVal → Serializer
  createSnapshot : JSVal → JSVal

/-- The properties of the action object. `instanceScoped` is the property `instance`.
`payload` holds what the setter of `payload` last returned (`undefined` before any
assignment). -/
structure Action where
  id : String := ""
  model : Option Model := none
  options : JSVal := .obj []
  instanceScoped : Bool := false
  integrated : Bool := false
  payload : JSVal := .undefined

/-- The calls made to the outside, in order. -/
inductive Call where
  | ajax (url method : String) (options : JSVal)
  | pushPayload (store : Store) (response : JSVal)
  | extractErrors (store : Store) (typeClass : TypeClass) (error : JSVal) (id : Option String)

/-- The read `this.get('model.id')`: `none` when there is no model or no identifier. -/
def modelId (self : Action) : Option String :=
  self.model.bind fun model => model.id

/-- Truthiness of an identifier: present and not the empty string. -/
def idPresent : Option String → Bool
  | none => false
  | some s => s != ""

/-- The method `init`. -/
def init (self : Action) : Except JSError Unit := do
  assert "Custom actions require model property to be passed!" self.model.isSome
  assert "Custom action model has to be persisted!"
    (!(self.instanceScoped && !idPresent (modelId self)))

/-- The setter of the computed property `payload`. -/
def payload (value : JSVal) : Except JSError JSVal := do
  let payload := if toBoolean value then value else .obj []
  assert "Custom action payload has to be an object" (emberTypeOf payload == "object")
  pure payload

/-- The assignment `action.set('payload', value)`. -/
def setPayload (self : Action) (value : JSVal) : Except JSError Action := do
  let resolved ← payload value
  pure { self with payload := resolved }

/-- The expression `constructor.modelName || constructor.typeKey` of a model. -/
def modelNameOf (model : Model) : JSVal :=
  if toBoolean model.typeClass.modelName then model.typeClass.modelName
  else model.typeClass.typeKey

/-- The computed property `modelName`. -/
def modelName (self : Action) : Except JSError JSVal :=
  match self.model with
  | none => throw .typeError
  | some model => pure (modelNameOf model)

/-- The computed property `adapter`. -/
def adapter (self : Action) : Except JSError Adapter :=
  match self.model with
  | none => throw .typeError
  | some model => do
    let name ← modelName self
    pure (model.adapterFor name)

/-- The computed property `serializer`. -/
def serializer (self : Action) : Except JSError Serializer :=
  match self.model with
  | none => throw .typeError
  | some model => do
    let name ← modelName self
    pure (model.serializerFor name)

/-- The computed property `config`. -/
def config (D : Deps) (self : Action) : JSVal :=
  let appConfig :=
    match self.model with
    | some model =>
      if toBoolean model.emberCustomActions then model.emberCustomActions else .obj []
    | none => .obj []
  deepMerge D [appConfig, self.options]

/-- The method `queryParams`. -/
def queryParams (D : Deps) (self : Action) : Except JSError JSVal := do
  let queryParams :=
    if emberTypeOf (get (config D self) "queryParams") == "object"
    then get (config D self) "queryParams" else .obj []
  let adapter ← adapter self
  pure (adapter.sortQueryParams queryParams)

/-- The call `value.toUpperCase()`. -/
def toUpperCase (D : Deps) (value : JSVal) : Except JSError String :=
  match value with
  | .str s => pure (D.toUpperCase s)
  | _ => throw .typeError

/-- The method `_methodForCustomAction`. -/
def _methodForCustomAction (D : Deps) (self : Action) : Except JSError JSVal := do
  let actionId := self.id
  let method := get (config D self) "method"
  let modelId := modelId self
  let adapter ← adapter self
  match adapter.methodForCustomAction with
  | none => throw .typeError
  | some hook => pure (hook { method := method, actionId := actionId, modelId := modelId })

/-- The method `_urlForCustomAction`. -/
def _urlForCustomAction (D : Deps) (self : Action) : Except JSError String := do
  let id := modelId self
  let actionId := self.id
  let queryParams ← queryParams D self
  let modelName ← modelName self
  let adapterOptions := get (config D self) "adapterOptions"
  match self.model with
  | none => throw .typeError
  | some model =>
    let snapshot := model.createSnapshot (.obj [("adapterOptions", adapterOptions)])
    let adapter ← adapter self
    match adapter.urlForCustomAction with
    | none => throw .typeError
    | some hook => pure (hook modelName id snapshot actionId queryParams)

/-- The method `_urlFromBuilder`. -/
def _urlFromBuilder (D : Deps) (self : Action) : Except JSError String := do
  let path := self.id
  let queryParams ← queryParams D self
  let modelName ← modelName self
  let id := if self.instanceScoped then modelId self else none
  let adapter ← adapter self
  let url := adapter._buildURL modelName id
  urlBuilder D.param url path queryParams

/-- The test shared by `requestMethod` and `requestUrl`:
`this.get('integrated') && this.get('adapter').urlForCustomAction`. -/
def useIntegration (self : Action) : Except JSError Bool :=
  if self.integrated then do
    let adapter ← adapter self
    pure adapter.urlForCustomAction.isSome
  else pure false

/-- The method `requestMethod`. -/
def requestMethod (D : Deps) (self : Action) : Except JSError String := do
  let integrated ← useIntegration self
  let method ←
    if integrated then _methodForCustomAction D self else pure (get (config D self) "method")
  toUpperCase D method

/-- The method `requestUrl`. -/
def requestUrl (D : Deps) (self : Action) : Except JSError String := do
  let integrated ← useIntegration self
  if integrated then _urlForCustomAction D self else _urlFromBuilder D self

/-- The method `requestData`. -/
def requestData (D : Deps) (self : Action) : JSVal :=
  let data := D.normalizePayload self.payload (get (config D self) "normalizeOperation")
  deepMerge D [get (config D self) "ajaxOptions", .obj [("data", data)]]

/-- The method `_validResponse`. -/
def _validResponse (object : JSVal) : Bool :=
  emberTypeOf object == "object" && decide ((ownKeys object).length > 0)

/-- The values that are neither arrays nor objects. -/
def isPrimitive : JSVal → Bool
  | .arr _ => false
  | .obj _ => false
  | _ => true

/-- The method `_onSuccess`: the calls it makes and the value it returns. -/
def _onSuccess (D : Deps) (self : Action) (response : JSVal) :
    List Call × Except JSError JSVal :=
  if toBoolean (get (config D self) "pushToStore") && _validResponse response then
    match self.model, serializer self with
    | some model, .ok serializer =>
      ([Call.pushPayload model.store response], .ok (serializer.pushPayload model.store response))
    | _, _ => ([], .error .typeError)
  else ([], .ok response)

/-- The assignment `error.serializedErrors = value`. -/
def setSerializedErrors (error value : JSVal) : JSVal :=
  match error with
  | .obj props => .obj (setProp props "serializedErrors" value)
  | other => other

/-- The method `_onError`: the calls it makes and the promise it returns. -/
def _onError (D : Deps) (self : Action) (error : JSVal) :
    List Call × Except JSError Promise :=
  if toBoolean (get (config D self) "pushToStore") then
    match member error "errors" with
    | .error e => ([], .error e)
    | .ok errors =>
      if isArray errors then
        match self.model, serializer self with
        | some model, .ok serializer =>
          let id := model.id
          let typeClass := model.typeClass
          ([Call.extractErrors model.store typeClass error id],
            .ok (.rejected (setSerializedErrors error
              (serializer.extractErrors model.store typeClass error id))))
        | _, _ => ([], .error .typeError)
      else ([], .ok (.rejected error))
  else ([], .ok (.rejected error))

/-- The method `_promise`: the arguments are evaluated from left to right, `ajax` is called,
and the handler that matches the outcome runs; an error thrown by a handler rejects the
promise returned by `then`. -/
def _promise (D : Deps) (self : Action) : List Call × Except JSError Promise :=
  let arguments : Except JSError (Adapter × String × String × JSVal) := do
    let adapter ← adapter self
    let url ← requestUrl D self
    let method ← requestMethod D self
    pure (adapter, url, method, requestData D self)
  match arguments with
  | .error e => ([], .error e)
  | .ok (adapter, url, method, data) =>
    match adapter.ajax url method data with
    | .ok response =>
      match _onSuccess D self response with
      | (calls, .ok value) => (Call.ajax url method data :: calls, .ok (.fulfilled value))
      | (calls, .error e) => (Call.ajax url method data :: calls, .ok (.rejectedWith e))
    | .error error =>
      match _onError D self error with
      | (calls, .ok promise) => (Call.ajax url method data :: calls, .ok promise)
      | (calls, .error e) => (Call.ajax url method data :: calls, .ok (.rejectedWith e))

/-- The method `callAction`. The object literal `promiseProxies` owns the keys `array` and
`object`; any other key is looked up among what it inherits. -/
def callAction (D : Deps) (self : Action) : List Call × Except JSError ActionResult :=
  match _promise D self with
  | (calls, .error e) => (calls, .error e)
  | (calls, .ok promise) =>
    let responseType : Except JSError String :=
      match get (config D self) "responseType" with
      | .str s => pure (D.camelize s)
      | v => if toBoolean v then throw .typeError else pure (D.camelize "")
    match responseType with
    | .error e => (calls, .error e)
    | .ok "array" => (calls, .ok (.arrayProxy promise))
    | .ok "object" => (calls, .ok (.objectProxy promise))
    | .ok key =>
      match D.inheritedProxy key with
      | some create => (calls, create promise)
      | none => (calls, .ok (.promise promise))

/-- The expression `Action.create(properties).callAction()`: `init` runs at construction, and
only a constructed action is dispatched. -/
def createAndCall (D : Deps) (properties : Action) : List Call × Except JSError ActionResult :=
  match init properties with
  | .error e => ([], .error e)
  | .ok _ => callAction D properties

/-! ## Sample collaborators -/

/-- ASCII upper case. -/
def asciiUpper (s : String) : String :=
  String.mk (s.data.map Char.toUpper)

mutual
/-- A bracket walk over a nested value: the items of an array under `key[]`, or under
`key[i]` when the item is itself an array or an object, and the properties of an object under
`key[name]`. -/
def bracketPairs (pfx : String) : JSVal → List String
  | .arr items => bracketItems pfx 0 items
  | .obj props => bracketProps pfx props
  | v => [add encodeURIComponent (fun n => toString n) pfx v]
/-- The items of an array in the bracket walk. -/
def bracketItems (pfx : String) (i : Nat) : List JSVal → List String
  | [] => []
  | .arr xs :: rest =>
    bracketPairs (pfx ++ "[" ++ toString i ++ "]") (.arr xs) ++ bracketItems pfx (i + 1) rest
  | .obj ps :: rest =>
    bracketPairs (pfx ++ "[" ++ toString i ++ "]") (.obj ps) ++ bracketItems pfx (i + 1) rest
  | v :: rest => bracketPairs (pfx ++ "[]") v ++ bracketItems pfx (i + 1) rest
/-- The properties of an object in the bracket walk. -/
def bracketProps (pfx : String) : List (String × JSVal) → List String
  | [] => []
  | (key, value) :: rest =>
    bracketPairs (pfx ++ "[" ++ key ++ "]") value ++ bracketProps pfx rest
end

/-- An instance of what the serialiser takes as given: `encodeURIComponent`, numbers in
decimal digits (the text the language gives below ten to the twenty-first), and the bracket
walk for nested values. -/
def sampleParamDeps : ParamDeps where
  encode := encodeURIComponent
  numberToString := fun n => toString n
  nested := bracketPairs

/-- The names other than `constructor` that an object literal inherits from
`Object.prototype`. -/
def inheritedNames : List String :=
  ["__defineGetter__", "__defineSetter__", "hasOwnProperty", "__lookupGetter__",
    "__lookupSetter__", "isPrototypeOf", "propertyIsEnumerable", "toString", "valueOf",
    "__proto__", "toLocaleString"]

/-- An instance of the imported functions that agrees with the real ones on the inputs used
below: identity `camelize` (lower-case words), ASCII `toUpperCase`, a nested merge that takes
the source value (right when the destination has no value at the key), the pass-through
`normalizePayload`, and the `jquery-param` serialiser. Of the inherited keys of
`promiseProxies`, `constructor` is `Object`, whose `create` makes an object, and the others
have no `create`, so that calling it throws. -/
def sampleDeps : Deps where
  camelize := fun s => s
  toUpperCase := asciiUpper
  mergeDeep := fun _ source => source
  normalizePayload := fun payload _ => payload
  param := jqueryParam sampleParamDeps
  inheritedProxy := fun key =>
    if key = "constructor" then some fun promise => .ok (.created promise)
    else if inheritedNames.contains key then some fun _ => .error .typeError
    else none

/-- The plural path of a model name. -/
def pathFor (name : JSVal) : String :=
  match name with
  | .str s => "/" ++ s ++ "s"
  | _ => "/"

/-- A REST-like adapter without the hooks of the adapter integration. -/
def sampleAdapter : Adapter where
  _buildURL := fun name id =>
    pathFor name ++ (match id with | some i => "/" ++ i | none => "")
  sortQueryParams := fun query => query
  urlForCustomAction := none
  methodForCustomAction := none
  ajax := fun _ _ _ => .ok (.obj [("id", .str "42")])

/-- An adapter with both hooks; `methodForCustomAction` hands back the configured method. -/
def integratedAdapter : Adapter where
  _buildURL := sampleAdapter._buildURL
  sortQueryParams := fun query => query
  urlForCustomAction := some fun name id _ actionId _ =>
    "/custom" ++ pathFor name ++ "/" ++ id.getD "" ++ "/" ++ actionId
  methodForCustomAction := some fun params => params.method
  ajax := sampleAdapter.ajax

/-- An adapter with the hook `urlForCustomAction` only. -/
def urlHookAdapter : Adapter where
  _buildURL := sampleAdapter._buildURL
  sortQueryParams := fun query => query
  urlForCustomAction := integratedAdapter.urlForCustomAction
  methodForCustomAction := none
  ajax := sampleAdapter.ajax

/-- An adapter whose request is rejected with the given error. -/
def rejectingAdapter (error : JSVal) : Adapter where
  _buildURL := sampleAdapter._buildURL
  sortQueryParams := fun query => query
  urlForCustomAction := none
  methodForCustomAction := none
  ajax := fun _ _ _ => .error error

/-- A serializer whose answers can be told apart from their arguments. -/
def sampleSerializer : Serializer where
  pushPayload := fun _ _ => .str "pushed"
  extractErrors := fun _ _ error _ => .obj [("base", get error "errors")]

/-- A persisted `post` model with identifier 42; the ambient configuration and the adapter
are given. -/
def sampleModel (ambient : JSVal) (adapter : Adapter) : Model where
  id := some "42"
  typeClass := { modelName := .str "post", typeKey := .undefined }
  store := { handle := 0 }
  emberCustomActions := ambient
  adapterFor := fun _ => adapter
  serializerFor := fun _ => sampleSerializer
  createSnapshot := fun options => options

/-- A `post` model that was never saved: it has no identifier. -/
def newModel : Model where
  id := none
  typeClass := { modelName := .str "post", typeKey := .undefined }
  store := { handle := 0 }
  emberCustomActions := .undefined
  adapterFor := fun _ => sampleAdapter
  serializerFor := fun _ => sampleSerializer
  createSnapshot := fun options => options

/-- The action `activate` on the model that was never saved. -/
def newModelAction (instanceScoped : Bool) : Action where
  id := "activate"
  model := some newModel
  instanceScoped := instanceScoped

/-- The instance-scoped action `activate` on the sample model, with the given options. -/
def sampleAction (options : JSVal) (integrated : Bool) (adapter : Adapter) : Action where
  id := "activate"
  model := some (sampleModel .undefined adapter)
  options := options
  instanceScoped := true
  integrated := integrated

/-! ## Lemmas on property lists and on the merge -/

theorem lookup_setProp (props : List (String × JSVal)) (key other : String) (value : JSVal) :
    (setProp props key value).lookup other =
      if other = key then some value else props.lookup other := by
  induction props with
  | nil =>
    by_cases h : other = key
    · simp [setProp, List.lookup, h]
    · have h2 : (other == key) = false := by simpa using h
      simp [setProp, List.lookup, h, h2]
  | cons p rest ih =>
    obtain ⟨k, v⟩ := p
    by_cases hk : k = key
    · by_cases h : other = key
      · simp [setProp, List.lookup, hk, h]
      · have h2 : (other == key) = false := by simpa using h
        simp [setProp, List.lookup, hk, h, h2]
    · by_cases h : other = key
      · have h2 : (key == k) = false := by simpa using fun e => hk e.symm
        subst h
        simp only [setProp, hk, if_false, List.lookup, h2]
        simpa using ih
      · by_cases h3 : other = k
        · simp [setProp, List.lookup, hk, h, h3]
        · have h4 : (other == k) = false := by simpa using h3
          simp [setProp, List.lookup, hk, h, h4, ih]

theorem getProp_setProp_same (props : List (String × JSVal)) (key : String) (value : JSVal) :
    getProp (setProp props key value) key = value := by
  simp [getProp, lookup_setProp]

theorem getProp_setProp_other (props : List (String × JSVal)) (key other : String)
    (value : JSVal) (h : other ≠ key) :
    getProp (setProp props key value) other = getProp props other := by
  simp [getProp, lookup_setProp, h]

theorem lookup_assignMergeValue (object : List (String × JSVal)) (key other : String)
    (value : JSVal) (h : other ≠ key) :
    (assignMergeValue object key value).lookup other = object.lookup other := by
  unfold assignMergeValue
  split
  · split
    · rfl
    · simp [lookup_setProp, h]
  · simp [lookup_setProp, h]

theorem lookup_baseMerge (D : Deps) (other : String) (source : List (String × JSVal)) :
    ∀ object : List (String × JSVal), other ∉ source.map Prod.fst →
      (baseMerge D object source).lookup other = object.lookup other := by
  induction source with
  | nil => intro object _; rfl
  | cons p rest ih =>
    intro object hnot
    obtain ⟨k, v⟩ := p
    have hk : other ≠ k := by
      intro e
      exact hnot (by simp [e])
    have hrest : other ∉ rest.map Prod.fst := by
      intro hmem
      exact hnot (by simp only [List.map_cons, List.mem_cons]; exact Or.inr hmem)
    unfold baseMerge
    cases v <;> simp only [] <;> rw [ih _ hrest] <;>
      first
        | exact lookup_assignMergeValue object k other _ hk
        | simp [lookup_setProp, hk]

theorem get_deepMerge_absent (D : Deps) (key : String) (first second : JSVal)
    (h1 : key ∉ ownKeys first) (h2 : key ∉ ownKeys second) :
    get (deepMerge D [first, second]) key = .undefined := by
  have step : ∀ (object : List (String × JSVal)) (source : JSVal), key ∉ ownKeys source →
      (if toBoolean source then baseMerge D object (entries source) else object).lookup key
        = object.lookup key := by
    intro object source hs
    split
    · exact lookup_baseMerge D key (entries source) object hs
    · rfl
  simp only [deepMerge, get, getProp, List.foldl]
  rw [step _ second h2, step _ first h1]
  rfl

/-- An action whose ambient configuration and options both lack a key resolves that key of the
configuration to `undefined`. -/
theorem get_config_absent (D : Deps) (self : Action) (key : String)
    (hambient : ∀ model, self.model = some model → key ∉ ownKeys model.emberCustomActions)
    (hoptions : key ∉ ownKeys self.options) :
    get (config D self) key = .undefined := by
  unfold config
  apply get_deepMerge_absent _ _ _ _ _ hoptions
  cases hm : self.model with
  | none => simp [ownKeys, entries]
  | some model =>
    simp only []
    split
    · exact hambient model hm
    · simp [ownKeys, entries]

theorem serializer_of_model (self : Action) (model : Model) (h : self.model = some model) :
    serializer self = .ok (model.serializerFor (modelNameOf model)) := by
  simp [serializer, modelName, h]
  rfl

theorem adapter_of_model (self : Action) (model : Model) (h : self.model = some model) :
    adapter self = .ok (model.adapterFor (modelNameOf model)) := by
  simp [adapter, modelName, h]
  rfl

/-! ## Success and error handlers -/

/-- C1: when `pushToStore` of the resolved configuration is truthy and the response is a plain
object with at least one own key, `_onSuccess` calls `pushPayload` exactly once, with the
store and that response, makes no other call, and returns what `pushPayload` returned. -/
theorem onSuccess_pushes_nonempty_object (D : Deps) (self : Action) (model : Model)
    (props : List (String × JSVal))
    (hmodel : self.model = some model)
    (hpush : toBoolean (get (config D self) "pushToStore") = true)
    (hprops : props ≠ []) :
    _onSuccess D self (.obj props) =
      ([Call.pushPayload model.store (.obj props)],
        .ok ((model.serializerFor (modelNameOf model)).pushPayload model.store (.obj props))) := by
  have hvalid : _validResponse (.obj props) = true := by
    cases props with
    | nil => exact absurd rfl hprops
    | cons p rest => simp [_validResponse, emberTypeOf, ownKeys, entries]
  simp only [_onSuccess, hpush, hvalid, Bool.and_self, if_true, hmodel,
    serializer_of_model self model hmodel]

/-- Witness of C1: options `{pushToStore: true}` and the response `{a: 1}`; the sample
serializer answers `"pushed"`, which is not the response. -/
theorem onSuccess_pushes_nonempty_object_witness :
    _onSuccess sampleDeps (sampleAction (.obj [("pushToStore", .bool true)]) false sampleAdapter)
        (.obj [("a", .num 1)]) =
      ([Call.pushPayload { handle := 0 } (.obj [("a", .num 1)])], .ok (.str "pushed")) :=
  onSuccess_pushes_nonempty_object sampleDeps
    (sampleAction (.obj [("pushToStore", .bool true)]) false sampleAdapter)
    (sampleModel .undefined sampleAdapter) [("a", .num 1)] rfl rfl (by simp)

/-- C2: `_onSuccess` makes no call and returns the response itself whenever `pushToStore` is
falsy, and also whenever the response is the empty object, an array or a primitive. -/
theorem onSuccess_returns_raw_response (D : Deps) (self : Action) (response : JSVal)
    (h : toBoolean (get (config D self) "pushToStore") = false ∨ response = .obj [] ∨
      (∃ items, response = .arr items) ∨ isPrimitive response = true) :
    _onSuccess D self response = ([], .ok response) := by
  have hcond : (toBoolean (get (config D self) "pushToStore") && _validResponse response)
      = false := by
    rcases h with h | h | ⟨items, h⟩ | h
    · simp [h]
    · subst h
      simp [_validResponse, ownKeys, entries]
    · subst h
      simp [_validResponse, emberTypeOf]
    · cases response <;> simp_all [_validResponse, emberTypeOf, isPrimitive]
  simp [_onSuccess, hcond]

/-- Witness of C2: `pushToStore` is true and the response is an array. -/
theorem onSuccess_returns_raw_response_witness :
    _onSuccess sampleDeps (sampleAction (.obj [("pushToStore", .bool true)]) false sampleAdapter)
        (.arr [.obj [("id", .num 1)]]) =
      ([], .ok (.arr [.obj [("id", .num 1)]])) :=
  onSuccess_returns_raw_response sampleDeps
    (sampleAction (.obj [("pushToStore", .bool true)]) false sampleAdapter)
    (.arr [.obj [("id", .num 1)]]) (Or.inr (Or.inr (Or.inl ⟨_, rfl⟩)))

/-- Counterexample to C3: with `pushToStore` true and a request rejected with `null`, reading
`error.errors` throws inside `_onError`, and the promise of `_promise` is rejected with that
`TypeError`, not with the error of the transport. -/
theorem onError_null_error_is_replaced :
    _onError sampleDeps
        (sampleAction (.obj [("pushToStore", .bool true), ("method", .str "post")]) false
          (rejectingAdapter .null)) .null
      = ([], .error .typeError) ∧
    (_promise sampleDeps
        (sampleAction (.obj [("pushToStore", .bool true), ("method", .str "post")]) false
          (rejectingAdapter .null))).2
      = .ok (.rejectedWith .typeError) ∧
    (_promise sampleDeps
        (sampleAction (.obj [("pushToStore", .bool true), ("method", .str "post")]) false
          (rejectingAdapter .null))).2
      ≠ .ok (.rejected .null) := by
  refine ⟨rfl, rfl, ?_⟩
  intro h
  have h2 : (Except.ok (Promise.rejectedWith .typeError) : Except JSError Promise)
      = .ok (.rejected .null) := h
  simp at h2

/-- C3, amended: when `pushToStore` is falsy, `_onError` makes no call and returns a promise
rejected with the error as received, whatever the error. For an error that is not `undefined`
or `null`, `_onError` always returns a promise rejected with that error: when `pushToStore` is
truthy and `error.errors` passes `isArray`, `extractErrors` is called once with the store, the
class of the model, the error and the identifier of the model, and the rejected error is the
error with `serializedErrors` set to the outcome of that call, every other property as it was;
when `error.errors` does not pass `isArray`, no call is made and the rejected error is the
error as received. -/
theorem onError_reconciliation (D : Deps) (self : Action) (model : Model) (error : JSVal)
    (hmodel : self.model = some model) :
    (toBoolean (get (config D self) "pushToStore") = false →
      _onError D self error = ([], .ok (.rejected error))) ∧
    (error ≠ .undefined → error ≠ .null →
      (toBoolean (get (config D self) "pushToStore") = true →
        isArray (get error "errors") = true →
        _onError D self error =
            ([Call.extractErrors model.store model.typeClass error model.id],
              .ok (.rejected (setSerializedErrors error
                ((model.serializerFor (modelNameOf model)).extractErrors
                  model.store model.typeClass error model.id)))) ∧
          get (setSerializedErrors error
                ((model.serializerFor (modelNameOf model)).extractErrors
                  model.store model.typeClass error model.id)) "serializedErrors" =
            (model.serializerFor (modelNameOf model)).extractErrors
              model.store model.typeClass error model.id ∧
          ∀ key value, key ≠ "serializedErrors" →
            get (setSerializedErrors error value) key = get error key) ∧
      (isArray (get error "errors") = false →
        _onError D self error = ([], .ok (.rejected error)))) := by
  refine ⟨fun h => by simp [_onError, h], fun hundefined hnull => ?_⟩
  have hmember : member error "errors" = .ok (get error "errors") := by
    cases error <;> first | exact absurd rfl hundefined | exact absurd rfl hnull | rfl
  refine ⟨fun hpush harr => ⟨?_, ?_, ?_⟩, fun h => ?_⟩
  · simp only [_onError, hpush, if_true, hmember, harr, hmodel,
      serializer_of_model self model hmodel]
  · cases error with
    | obj props => simp [setSerializedErrors, get, getProp_setProp_same]
    | _ => simp [get, isArray, toBoolean] at harr
  · intro key value hkey
    cases error with
    | obj props => simp [setSerializedErrors, get, getProp_setProp_other _ _ _ _ hkey]
    | _ => rfl
  · by_cases hpush : toBoolean (get (config D self) "pushToStore") = true
    · simp [_onError, hpush, hmember, h]
    · simp [_onError, hpush]

/-- Witness of C3, amended: options `{pushToStore: true}` and the error
`{errors: [{detail: "taken"}]}`. -/
theorem onError_reconciliation_witness :
    _onError sampleDeps (sampleAction (.obj [("pushToStore", .bool true)]) false sampleAdapter)
        (.obj [("errors", .arr [.obj [("detail", .str "taken")]])]) =
      ([Call.extractErrors { handle := 0 } { modelName := .str "post", typeKey := .undefined }
          (.obj [("errors", .arr [.obj [("detail", .str "taken")]])]) (some "42")],
        .ok (.rejected (.obj [("errors", .arr [.obj [("detail", .str "taken")]]),
          ("serializedErrors", .obj [("base", .arr [.obj [("detail", .str "taken")]])])]))) :=
  (((onError_reconciliation sampleDeps
    (sampleAction (.obj [("pushToStore", .bool true)]) false sampleAdapter)
    (sampleModel .undefined sampleAdapter)
    (.obj [("errors", .arr [.obj [("detail", .str "taken")]])]) rfl).2 (by simp) (by simp)).1
      rfl rfl).1

/-! ## The URL builder -/

theorem append_slash_of_endsWithSlash (url : String) (h : endsWithSlash url = true) :
    ∃ base : String, url = base ++ "/" := by
  refine ⟨String.mk url.data.dropLast, ?_⟩
  have hlast : url.data.getLast? = some '/' := by simpa [endsWithSlash] using h
  have hdata : url.data.dropLast ++ ['/'] = url.data :=
    List.dropLast_append_getLast? '/' (by simp [hlast])
  apply String.ext
  simp [String.data_append, hdata]

theorem buildTop_eq_mapM (L : ParamDeps) (props : List (String × JSVal)) :
    buildTop L props =
      (props.mapM fun p => buildParams L p.1 p.2).map List.flatten := by
  induction props with
  | nil => simp only [buildTop, List.mapM_nil]; rfl
  | cons p rest ih =>
    obtain ⟨k, v⟩ := p
    simp only [buildTop, ih, List.mapM_cons]
    cases buildParams L k v with
    | error e => rfl
    | ok here =>
      cases List.mapM (fun p => buildParams L p.1 p.2) rest with
      | error e => rfl
      | ok more => simp [bind, Except.bind, pure, Except.pure, Except.map]

/-- C4: when the query parameters serialise to the empty string, `urlBuilder` returns the base
URL and the path joined by one `/` and nothing after the path: the base URL itself before the
`/` when it does not end in `/`, the base URL without its final `/` when it does. -/
theorem urlBuilder_empty_query_joins_with_one_slash (param : JSVal → Except JSError String)
    (url path : String) (queryParams : JSVal) (hquery : param queryParams = .ok "") :
    (endsWithSlash url = false →
      urlBuilder param url path queryParams = .ok (url ++ "/" ++ path)) ∧
    (endsWithSlash url = true →
      ∃ base : String, url = base ++ "/" ∧
        urlBuilder param url path queryParams = .ok (base ++ "/" ++ path)) := by
  constructor
  · intro h
    simp [urlBuilder, hquery, h, bind, Except.bind, pure, Except.pure]
  · intro h
    obtain ⟨base, hbase⟩ := append_slash_of_endsWithSlash url h
    refine ⟨base, hbase, ?_⟩
    subst hbase
    simp [urlBuilder, hquery, h, bind, Except.bind, pure, Except.pure]

/-- Witness of C4: the two examples, with the `jquery-param` serialiser and `{}`. -/
theorem urlBuilder_empty_query_joins_with_one_slash_witness :
    urlBuilder (jqueryParam sampleParamDeps) "http://x/y" "act" (.obj [])
        = .ok "http://x/y/act" ∧
    urlBuilder (jqueryParam sampleParamDeps) "http://x/y/" "act" (.obj [])
        = .ok "http://x/y/act" ∧
    ∃ base : String, "http://x/y/" = base ++ "/" ∧
      urlBuilder (jqueryParam sampleParamDeps) "http://x/y/" "act" (.obj [])
        = .ok (base ++ "/" ++ "act") :=
  ⟨(urlBuilder_empty_query_joins_with_one_slash (jqueryParam sampleParamDeps)
      "http://x/y" "act" (.obj []) rfl).1 rfl,
    rfl,
    (urlBuilder_empty_query_joins_with_one_slash (jqueryParam sampleParamDeps)
      "http://x/y/" "act" (.obj []) rfl).2 rfl⟩

/-- Counterexample to C5: for `{b: 2, a: 1}` the keys come out as they are enumerated, `b`
before `a`; the URL is not the one with sorted keys. -/
theorem urlBuilder_does_not_sort_keys :
    urlBuilder (jqueryParam sampleParamDeps) "http://x/y" "act"
        (.obj [("b", .num 2), ("a", .num 1)]) = .ok "http://x/y/act?b=2&a=1" ∧
    urlBuilder (jqueryParam sampleParamDeps) "http://x/y" "act"
        (.obj [("b", .num 2), ("a", .num 1)]) ≠ .ok "http://x/y/act?a=1&b=2" := by
  refine ⟨rfl, ?_⟩
  intro h
  have h2 : (Except.ok "http://x/y/act?b=2&a=1" : Except JSError String)
      = .ok "http://x/y/act?a=1&b=2" := h
  simp at h2

/-- C5, amended: `urlBuilder` appends `?` and the serialised query exactly when that string is
not empty, and it hands the query parameters to the serialiser as it received them, without
sorting. In the output of `jquery-param` for an object, the pairs of the keys follow one
another in the enumeration order of the object: the pairs of the first key, then those of the
second, and so on. So `{b: 2, a: 1}` gives `?b=2&a=1` and `{a: 1, b: 2}` gives `?a=1&b=2`. -/
theorem urlBuilder_appends_query_in_enumeration_order (param : JSVal → Except JSError String)
    (L : ParamDeps) (url path query : String) (queryParams : JSVal)
    (props : List (String × JSVal))
    (hquery : param queryParams = .ok query) :
    urlBuilder param url path queryParams =
      .ok (if query = "" then (if endsWithSlash url then url ++ path else url ++ "/" ++ path)
        else (if endsWithSlash url then url ++ path else url ++ "/" ++ path) ++ "?" ++ query) ∧
    jqueryParam L (.obj props) =
      ((props.mapM fun p => buildParams L p.1 p.2).map fun groups =>
        "&".intercalate groups.flatten) ∧
    urlBuilder (jqueryParam L) url path (.obj props) =
      ((props.mapM fun p => buildParams L p.1 p.2).map fun groups =>
        if "&".intercalate groups.flatten = "" then
          (if endsWithSlash url then url ++ path else url ++ "/" ++ path)
        else (if endsWithSlash url then url ++ path else url ++ "/" ++ path) ++ "?" ++
          "&".intercalate groups.flatten) ∧
    urlBuilder (jqueryParam sampleParamDeps) "http://x/y" "act"
        (.obj [("b", .num 2), ("a", .num 1)]) = .ok "http://x/y/act?b=2&a=1" ∧
    urlBuilder (jqueryParam sampleParamDeps) "http://x/y" "act"
        (.obj [("a", .num 1), ("b", .num 2)]) = .ok "http://x/y/act?a=1&b=2" := by
  have hparam : jqueryParam L (.obj props) =
      ((props.mapM fun p => buildParams L p.1 p.2).map fun groups =>
        "&".intercalate groups.flatten) := by
    simp only [jqueryParam, buildParams, buildTop_eq_mapM L props]
    cases List.mapM (fun p => buildParams L p.1 p.2) props with
    | error e => rfl
    | ok groups => rfl
  refine ⟨?_, hparam, ?_, rfl, rfl⟩
  · by_cases hq : query = "" <;>
      simp [urlBuilder, hquery, hq, bind, Except.bind, pure, Except.pure]
  · simp only [urlBuilder, hparam]
    cases List.mapM (fun p => buildParams L p.1 p.2) props with
    | error e => rfl
    | ok groups =>
      by_cases hq : "&".intercalate groups.flatten = "" <;>
        simp [Except.map, hq, bind, Except.bind, pure, Except.pure]

/-- Witness of C5, amended: the mapping `{b: 2, a: 1}` with the sample serialiser. -/
theorem urlBuilder_appends_query_in_enumeration_order_witness :
    urlBuilder (jqueryParam sampleParamDeps) "http://x/y" "act"
        (.obj [("b", .num 2), ("a", .num 1)]) =
      .ok (if "b=2&a=1" = "" then
          (if endsWithSlash "http://x/y" then "http://x/y" ++ "act"
            else "http://x/y" ++ "/" ++ "act")
        else (if endsWithSlash "http://x/y" then "http://x/y" ++ "act"
            else "http://x/y" ++ "/" ++ "act") ++ "?" ++ "b=2&a=1") ∧
    jqueryParam sampleParamDeps (.obj [("b", .num 2), ("a", .num 1)]) = .ok "b=2&a=1" :=
  ⟨(urlBuilder_appends_query_in_enumeration_order (jqueryParam sampleParamDeps)
      sampleParamDeps "http://x/y" "act" "b=2&a=1" (.obj [("b", .num 2), ("a", .num 1)])
      [("b", .num 2), ("a", .num 1)] rfl).1,
    (urlBuilder_appends_query_in_enumeration_order (jqueryParam sampleParamDeps)
      sampleParamDeps "http://x/y" "act" "b=2&a=1" (.obj [("b", .num 2), ("a", .num 1)])
      [("b", .num 2), ("a", .num 1)] rfl).2.1⟩

/-! ## Construction and the payload -/

/-- C6: `init` fails exactly when there is no model, or the action is instance-scoped and the
identifier of the model is missing or empty; a failure at construction leaves the list of
outside calls empty, since nothing is dispatched; every other construction succeeds, among
them every collection-scoped action on a model without identifier. -/
theorem init_fails_iff_model_missing_or_not_persisted (D : Deps) (self : Action) :
    ((∃ e, init self = .error e) ↔
      (self.model = none ∨
        (self.instanceScoped = true ∧ (modelId self = none ∨ modelId self = some "")))) ∧
    (¬ (self.model = none ∨
        (self.instanceScoped = true ∧ (modelId self = none ∨ modelId self = some ""))) →
      init self = .ok ()) ∧
    (∀ model, self.model = some model → self.instanceScoped = false → init self = .ok ()) ∧
    (∀ e, init self = .error e → createAndCall D self = ([], .error e)) := by
  obtain ⟨id, model, options, inst, integ, payload⟩ := self
  refine ⟨?_, ?_, ?_, ?_⟩
  · cases model with
    | none => simp [init, assert, bind, Except.bind, throw, throwThe, MonadExceptOf.throw]
    | some m =>
      cases inst
      · simp [init, assert, bind, Except.bind, pure, Except.pure]
      · cases hid : m.id with
        | none =>
          simp [init, assert, bind, Except.bind, pure, Except.pure, modelId, idPresent, hid,
            throw, throwThe, MonadExceptOf.throw]
        | some s =>
          by_cases hs : s = ""
          · simp [init, assert, bind, Except.bind, pure, Except.pure, modelId, idPresent, hid,
              hs, throw, throwThe, MonadExceptOf.throw]
          · simp [init, assert, bind, Except.bind, pure, Except.pure, modelId, idPresent, hid,
              hs]
  · cases model with
    | none => simp
    | some m =>
      cases inst
      · simp [init, assert, bind, Except.bind, pure, Except.pure]
      · cases hid : m.id with
        | none => simp [modelId, hid]
        | some s =>
          by_cases hs : s = ""
          · simp [modelId, hid, hs]
          · simp [init, assert, bind, Except.bind, pure, Except.pure, modelId, idPresent, hid,
              hs]
  · intro m hm hinst
    simp only at hm hinst
    subst hm hinst
    simp [init, assert, bind, Except.bind, pure, Except.pure]
  · intro e he
    simp [createAndCall, he]

/-- Witness of C6: an instance-scoped action on a model without identifier fails at
construction and nothing is dispatched; the same action, collection-scoped, is constructed. -/
theorem init_fails_iff_model_missing_or_not_persisted_witness :
    createAndCall sampleDeps
        (newModelAction true)
      = ([], .error (.assertion "Custom action model has to be persisted!")) ∧
    init (newModelAction false)
      = .ok () :=
  ⟨(init_fails_iff_model_missing_or_not_persisted sampleDeps
      (newModelAction true)).2.2.2
      (.assertion "Custom action model has to be persisted!") rfl,
    (init_fails_iff_model_missing_or_not_persisted sampleDeps
      (newModelAction false)).2.2.1
      newModel rfl rfl⟩

/-- Counterexample to C9: the number `0` is a primitive, yet assigning it as the payload does
not fail; the payload resolves to the empty object. -/
theorem payload_zero_does_not_fail :
    payload (.num 0) = .ok (.obj []) ∧
    payload (.str "") = .ok (.obj []) ∧
    payload (.bool false) = .ok (.obj []) :=
  ⟨rfl, rfl, rfl⟩

/-- C9, amended: the resolved payload is always a plain object. A falsy value (`undefined`,
`null`, `false`, `0`, the empty string) resolves to the empty object, a plain object resolves
to itself, and every truthy value that is not a plain object (a non-zero number, a non-empty
string, `true`, any array) makes the assignment fail. -/
theorem payload_resolves_to_object_or_fails (value : JSVal) :
    (toBoolean value = false → payload value = .ok (.obj [])) ∧
    (∀ props, value = .obj props → payload value = .ok value) ∧
    (toBoolean value = true → emberTypeOf value ≠ "object" →
      payload value = .error (.assertion "Custom action payload has to be an object")) ∧
    (∀ items, value = .arr items →
      payload value = .error (.assertion "Custom action payload has to be an object")) ∧
    (∀ resolved, payload value = .ok resolved → emberTypeOf resolved = "object") ∧
    (∀ self resolved, setPayload self value = .ok resolved →
      emberTypeOf resolved.payload = "object") := by
  have key : ∀ resolved, payload value = .ok resolved → emberTypeOf resolved = "object" := by
    intro resolved h
    by_cases ht : toBoolean value = true
    · by_cases ho : emberTypeOf value = "object"
      · simp [payload, ht, assert, ho, bind, Except.bind, pure, Except.pure] at h
        subst h
        exact ho
      · simp [payload, ht, assert, ho, bind, Except.bind, throw, throwThe,
          MonadExceptOf.throw] at h
    · have hf : toBoolean value = false := by simpa using ht
      simp [payload, hf, assert, emberTypeOf, bind, Except.bind, pure, Except.pure] at h
      subst h
      rfl
  refine ⟨?_, ?_, ?_, ?_, key, ?_⟩
  · intro h
    simp [payload, h, assert, emberTypeOf, bind, Except.bind, pure, Except.pure]
  · intro props h
    subst h
    simp [payload, toBoolean, assert, emberTypeOf, bind, Except.bind, pure, Except.pure]
  · intro h hne
    simp [payload, h, assert, hne, bind, Except.bind, throw, throwThe, MonadExceptOf.throw]
  · intro items h
    subst h
    simp [payload, toBoolean, assert, emberTypeOf, bind, Except.bind, throw, throwThe,
      MonadExceptOf.throw]
  · intro self resolved h
    cases hp : payload value with
    | error e => simp [setPayload, hp, bind, Except.bind] at h
    | ok r =>
      simp [setPayload, hp, bind, Except.bind, pure, Except.pure] at h
      subst h
      exact key r hp

/-- Witness of C9, amended: the number `5` is refused, the number `0` gives the empty
object. -/
theorem payload_resolves_to_object_or_fails_witness :
    payload (.num 5) = .error (.assertion "Custom action payload has to be an object") ∧
    payload (.num 0) = .ok (.obj []) :=
  ⟨(payload_resolves_to_object_or_fails (.num 5)).2.2.1 rfl (by decide),
    (payload_resolves_to_object_or_fails (.num 0)).1 rfl⟩

/-! ## URL and method derivation, dispatch -/

theorem useIntegration_of_model (self : Action) (model : Model) (h : self.model = some model) :
    useIntegration self =
      .ok (self.integrated && (model.adapterFor (modelNameOf model)).urlForCustomAction.isSome) := by
  cases hi : self.integrated <;>
    simp [useIntegration, hi, adapter_of_model self model h, bind, Except.bind, pure,
      Except.pure]

theorem modelId_of_model (self : Action) (model : Model) (h : self.model = some model) :
    modelId self = model.id := by
  simp [modelId, h]

theorem queryParams_of_model (D : Deps) (self : Action) (model : Model)
    (h : self.model = some model) :
    queryParams D self =
      .ok ((model.adapterFor (modelNameOf model)).sortQueryParams
        (if emberTypeOf (get (config D self) "queryParams") == "object"
          then get (config D self) "queryParams" else .obj [])) := by
  simp [queryParams, adapter_of_model self model h, bind, Except.bind, pure, Except.pure]

/-- Counterexample to C7: for the instance-scoped action `activate` on the model 42, without
integration and without a method, construction succeeds and dispatch makes no call, but the
error it throws is the `TypeError` of calling `toUpperCase` on `undefined`, not a failed
assertion with a message about the method. -/
theorem callAction_without_method_is_type_error :
    init (sampleAction (.obj []) false sampleAdapter) = .ok () ∧
    callAction sampleDeps (sampleAction (.obj []) false sampleAdapter)
      = ([], .error .typeError) ∧
    ∀ message, (callAction sampleDeps (sampleAction (.obj []) false sampleAdapter)).2
      ≠ .error (.assertion message) := by
  refine ⟨rfl, rfl, ?_⟩
  intro message h
  have h2 : (Except.error JSError.typeError : Except JSError ActionResult)
      = .error (.assertion message) := h
  simp at h2

/-- C7, amended: when the generic strategy applies and the resolved configuration has no
method, construction succeeds (for a model that is present, and persisted if the action is
instance-scoped), `requestMethod` throws a `TypeError`, and `callAction` throws before `ajax`
is called: the list of outside calls is empty. The error thrown is that `TypeError` whenever
the URL could be built. -/
theorem callAction_without_method_throws_before_ajax (D : Deps) (self : Action) (model : Model)
    (hmodel : self.model = some model)
    (hid : self.instanceScoped = true → idPresent model.id = true)
    (hgeneric : self.integrated = false ∨
      (model.adapterFor (modelNameOf model)).urlForCustomAction = none)
    (hmethod : get (config D self) "method" = .undefined) :
    init self = .ok () ∧
    requestMethod D self = .error .typeError ∧
    (∃ e, callAction D self = ([], .error e) ∧ createAndCall D self = ([], .error e)) ∧
    (∀ url, requestUrl D self = .ok url → callAction D self = ([], .error .typeError)) := by
  have hint : useIntegration self = .ok false := by
    rw [useIntegration_of_model self model hmodel]
    rcases hgeneric with h | h <;> simp [h]
  have hinit : init self = .ok () := by
    cases hi : self.instanceScoped with
    | false => simp [init, assert, hmodel, hi, bind, Except.bind, pure, Except.pure]
    | true =>
      have := hid hi
      simp [init, assert, hmodel, hi, modelId_of_model self model hmodel, this, bind,
        Except.bind, pure, Except.pure]
  have hreq : requestMethod D self = .error .typeError := by
    simp [requestMethod, hint, hmethod, toUpperCase, bind, Except.bind, pure, Except.pure,
      throw, throwThe, MonadExceptOf.throw]
  have hcall : ∀ url, requestUrl D self = .ok url →
      callAction D self = ([], .error .typeError) := by
    intro url hurl
    simp [callAction, _promise, adapter_of_model self model hmodel, hurl, hreq, bind,
      Except.bind]
  refine ⟨hinit, hreq, ?_, hcall⟩
  cases hurl : requestUrl D self with
  | ok url =>
    exact ⟨.typeError, hcall url hurl, by simp [createAndCall, hinit, hcall url hurl]⟩
  | error e =>
    have hc : callAction D self = ([], .error e) := by
      simp [callAction, _promise, adapter_of_model self model hmodel, hurl, bind, Except.bind]
    exact ⟨e, hc, by simp [createAndCall, hinit, hc]⟩

/-- Witness of C7, amended: the scenario of the claim. -/
theorem callAction_without_method_throws_before_ajax_witness :
    init (sampleAction (.obj []) false sampleAdapter) = .ok () ∧
    requestMethod sampleDeps (sampleAction (.obj []) false sampleAdapter) = .error .typeError ∧
    (∃ e, callAction sampleDeps (sampleAction (.obj []) false sampleAdapter) = ([], .error e) ∧
      createAndCall sampleDeps (sampleAction (.obj []) false sampleAdapter) = ([], .error e)) ∧
    (∀ url, requestUrl sampleDeps (sampleAction (.obj []) false sampleAdapter) = .ok url →
      callAction sampleDeps (sampleAction (.obj []) false sampleAdapter)
        = ([], .error .typeError)) :=
  callAction_without_method_throws_before_ajax sampleDeps
    (sampleAction (.obj []) false sampleAdapter) (sampleModel .undefined sampleAdapter)
    rfl (fun _ => rfl) (Or.inl rfl) rfl

/-- Counterexample to C8: with neither an ambient configuration nor an option `pushToStore`,
the non-empty object response `{a: 1}` is returned as it is and `pushPayload` is not called,
and the error `{errors: []}` is rejected without `serializedErrors` and without a call of
`extractErrors`. -/
theorem pushToStore_is_not_true_by_default :
    get (config sampleDeps (sampleAction (.obj []) false sampleAdapter)) "pushToStore"
      = .undefined ∧
    _onSuccess sampleDeps (sampleAction (.obj []) false sampleAdapter) (.obj [("a", .num 1)])
      = ([], .ok (.obj [("a", .num 1)])) ∧
    _onSuccess sampleDeps (sampleAction (.obj []) false sampleAdapter) (.obj [("a", .num 1)])
      ≠ ([Call.pushPayload { handle := 0 } (.obj [("a", .num 1)])],
          .ok (sampleSerializer.pushPayload { handle := 0 } (.obj [("a", .num 1)]))) ∧
    _onError sampleDeps (sampleAction (.obj []) false sampleAdapter) (.obj [("errors", .arr [])])
      = ([], .ok (.rejected (.obj [("errors", .arr [])]))) := by
  refine ⟨rfl, rfl, ?_, rfl⟩
  intro h
  have h2 : (([], .ok (.obj [("a", .num 1)])) : List Call × Except JSError JSVal)
      = ([Call.pushPayload { handle := 0 } (.obj [("a", .num 1)])],
          .ok (sampleSerializer.pushPayload { handle := 0 } (.obj [("a", .num 1)]))) := h
  simp at h2

/-- C8, amended: `pushToStore` has no default in the action. When the ambient configuration
and the options both lack the key, the resolved configuration has `undefined` there and the
action behaves as with `pushToStore` false: every response is returned as it is, every error
is rejected as it is, and neither `pushPayload` nor `extractErrors` is called. -/
theorem pushToStore_absent_behaves_as_false (D : Deps) (self : Action)
    (hambient : ∀ model, self.model = some model →
      "pushToStore" ∉ ownKeys model.emberCustomActions)
    (hoptions : "pushToStore" ∉ ownKeys self.options) :
    get (config D self) "pushToStore" = .undefined ∧
    (∀ response, _onSuccess D self response = ([], .ok response)) ∧
    (∀ error, _onError D self error = ([], .ok (.rejected error))) := by
  have h := get_config_absent D self "pushToStore" hambient hoptions
  refine ⟨h, ?_, ?_⟩
  · intro response
    simp [_onSuccess, h, toBoolean]
  · intro error
    simp [_onError, h, toBoolean]

/-- Witness of C8, amended: ambient configuration `{method: "POST"}` and empty options. -/
theorem pushToStore_absent_behaves_as_false_witness :
    get (config sampleDeps
      { id := "activate", options := .obj [],
        model := some (sampleModel (.obj [("method", .str "POST")]) sampleAdapter) })
      "pushToStore" = .undefined ∧
    (∀ response, _onSuccess sampleDeps
      { id := "activate", options := .obj [],
        model := some (sampleModel (.obj [("method", .str "POST")]) sampleAdapter) }
      response = ([], .ok response)) ∧
    (∀ error, _onError sampleDeps
      { id := "activate", options := .obj [],
        model := some (sampleModel (.obj [("method", .str "POST")]) sampleAdapter) }
      error = ([], .ok (.rejected error))) :=
  pushToStore_absent_behaves_as_false sampleDeps
    { id := "activate", options := .obj [],
      model := some (sampleModel (.obj [("method", .str "POST")]) sampleAdapter) }
    (fun model h => by
      have hm : model = sampleModel (.obj [("method", .str "POST")]) sampleAdapter := by
        simpa using h.symm
      subst hm
      simp [ownKeys, entries, sampleModel])
    (by simp [ownKeys, entries])

/-- Counterexample to C10: under the integration strategy, with a hook
`methodForCustomAction` that answers `"post"`, the method of the request is `"POST"`, not the
answer of the hook. -/
theorem requestMethod_uppercases_hook_answer :
    integratedAdapter.methodForCustomAction.map
      (fun hook => hook { method := .str "post", actionId := "activate", modelId := some "42" })
      = some (.str "post") ∧
    requestMethod sampleDeps
      (sampleAction (.obj [("method", .str "post")]) true integratedAdapter) = .ok "POST" ∧
    requestMethod sampleDeps
      (sampleAction (.obj [("method", .str "post")]) true integratedAdapter) ≠ .ok "post" := by
  refine ⟨rfl, rfl, ?_⟩
  intro h
  have h2 : (Except.ok "POST" : Except JSError String) = .ok "post" := h
  simp at h2

/-- C10, amended: URL and method are derived by two mutually exclusive strategies chosen by
the same test. The integration strategy is used exactly when `integrated` is true and the
adapter has `urlForCustomAction`: the URL is what that hook answers for the model name, the
identifier, the snapshot, the action id and the sorted query parameters, and the method is
`toUpperCase()` of what `methodForCustomAction` answers for method, action id and model id; an
adapter that has `urlForCustomAction` but not `methodForCustomAction` makes `requestMethod`
throw a `TypeError`. Otherwise the method is `toUpperCase()` of `config.method` and the URL is
`urlBuilder` of `_buildURL` (for the model name and the identifier, `null` when the action is
not instance-scoped), the action id and the sorted query parameters. The query parameters are
`config.queryParams` when that is a plain object and the empty object otherwise. -/
theorem request_strategies (D : Deps) (self : Action) (model : Model)
    (hmodel : self.model = some model) :
    useIntegration self =
      .ok (self.integrated && (model.adapterFor (modelNameOf model)).urlForCustomAction.isSome) ∧
    (∀ urlHook, self.integrated = true →
      (model.adapterFor (modelNameOf model)).urlForCustomAction = some urlHook →
      requestUrl D self =
          .ok (urlHook (modelNameOf model) model.id
            (model.createSnapshot
              (.obj [("adapterOptions", get (config D self) "adapterOptions")]))
            self.id
            ((model.adapterFor (modelNameOf model)).sortQueryParams
              (if emberTypeOf (get (config D self) "queryParams") == "object"
                then get (config D self) "queryParams" else .obj []))) ∧
        requestMethod D self =
          match (model.adapterFor (modelNameOf model)).methodForCustomAction with
          | some methodHook =>
            toUpperCase D (methodHook
              { method := get (config D self) "method", actionId := self.id,
                modelId := model.id })
          | none => .error .typeError) ∧
    (self.integrated = false ∨
        (model.adapterFor (modelNameOf model)).urlForCustomAction = none →
      requestMethod D self = toUpperCase D (get (config D self) "method") ∧
        requestUrl D self =
          urlBuilder D.param
            ((model.adapterFor (modelNameOf model))._buildURL (modelNameOf model)
              (if self.instanceScoped then model.id else none))
            self.id
            ((model.adapterFor (modelNameOf model)).sortQueryParams
              (if emberTypeOf (get (config D self) "queryParams") == "object"
                then get (config D self) "queryParams" else .obj []))) := by
  have hint := useIntegration_of_model self model hmodel
  have hadapter := adapter_of_model self model hmodel
  have hquery := queryParams_of_model D self model hmodel
  have hid := modelId_of_model self model hmodel
  have hname : modelName self = .ok (modelNameOf model) := by simp [modelName, hmodel]; rfl
  refine ⟨hint, ?_, ?_⟩
  · intro urlHook hi hurl
    have hint2 : useIntegration self = .ok true := by rw [hint]; simp [hi, hurl]
    constructor
    · simp [requestUrl, hint2, _urlForCustomAction, hquery, hname, hmodel, hadapter, hurl, hid,
        bind, Except.bind, pure, Except.pure]
    · cases hmethod : (model.adapterFor (modelNameOf model)).methodForCustomAction with
      | none =>
        simp [requestMethod, hint2, _methodForCustomAction, hadapter, hmethod, hid, bind,
          Except.bind, pure, Except.pure, throw, throwThe, MonadExceptOf.throw]
      | some methodHook =>
        simp [requestMethod, hint2, _methodForCustomAction, hadapter, hmethod, hid, bind,
          Except.bind, pure, Except.pure]
  · intro hgeneric
    have hint2 : useIntegration self = .ok false := by
      rw [hint]
      rcases hgeneric with h | h <;> simp [h]
    constructor
    · simp [requestMethod, hint2, bind, Except.bind, pure, Except.pure]
    · simp [requestUrl, hint2, _urlFromBuilder, hquery, hname, hadapter, hid, bind,
        Except.bind, pure, Except.pure]

/-- Witness of C10, amended: the sample action with method `post` and query parameters
`{b: 2, a: 1}`, under the integration strategy with both hooks, under the integration
strategy with the URL hook alone, and under the generic strategy. -/
theorem request_strategies_witness :
    (requestUrl sampleDeps
        (sampleAction (.obj [("method", .str "post"),
          ("queryParams", .obj [("b", .num 2), ("a", .num 1)])]) true integratedAdapter)
        = .ok "/custom/posts/42/activate" ∧
      requestMethod sampleDeps
        (sampleAction (.obj [("method", .str "post"),
          ("queryParams", .obj [("b", .num 2), ("a", .num 1)])]) true integratedAdapter)
        = .ok "POST") ∧
    (requestUrl sampleDeps
        (sampleAction (.obj [("method", .str "post"),
          ("queryParams", .obj [("b", .num 2), ("a", .num 1)])]) true urlHookAdapter)
        = .ok "/custom/posts/42/activate" ∧
      requestMethod sampleDeps
        (sampleAction (.obj [("method", .str "post"),
          ("queryParams", .obj [("b", .num 2), ("a", .num 1)])]) true urlHookAdapter)
        = .error .typeError) ∧
    (requestMethod sampleDeps
        (sampleAction (.obj [("method", .str "post"),
          ("queryParams", .obj [("b", .num 2), ("a", .num 1)])]) false sampleAdapter)
        = .ok "POST" ∧
      requestUrl sampleDeps
        (sampleAction (.obj [("method", .str "post"),
          ("queryParams", .obj [("b", .num 2), ("a", .num 1)])]) false sampleAdapter)
        = .ok "/posts/42/activate?b=2&a=1") :=
  ⟨(request_strategies sampleDeps
      (sampleAction (.obj [("method", .str "post"),
        ("queryParams", .obj [("b", .num 2), ("a", .num 1)])]) true integratedAdapter)
      (sampleModel .undefined integratedAdapter) rfl).2.1 _ rfl rfl,
    (request_strategies sampleDeps
      (sampleAction (.obj [("method", .str "post"),
        ("queryParams", .obj [("b", .num 2), ("a", .num 1)])]) true urlHookAdapter)
      (sampleModel .undefined urlHookAdapter) rfl).2.1 _ rfl rfl,
    (request_strategies sampleDeps
      (sampleAction (.obj [("method", .str "post"),
        ("queryParams", .obj [("b", .num 2), ("a", .num 1)])]) false sampleAdapter)
      (sampleModel .undefined sampleAdapter) rfl).2.2 (Or.inl rfl)⟩

end EmberCustomActions
